import Mathlib

/-!
Shallow embedding of `geo-offset` (`src/offset.rs`): the offset (buffer)
algorithm for 2D geometries, generic over a floating-point-like numeric
interface.  Coordinates are embedded as exact rationals; the transcendental
operations the Rust code obtains from its `Float` trait bound
(`cos`, `sin`, `atan2`, `sqrt`, the constant π) are passed as an explicit
record of operations, mirroring the generic `F: CoordFloat + Float`
parameter of the source.  The external boolean-polygon engine
(`geo_booleanop`) is likewise passed as a record of its `union` and
`difference` entry points, as the spec treats it as a black-box collaborator.
-/

namespace GeoOffset

/-- A 2D coordinate, `geo_types::Coord` with rational components. -/
structure Coord where
  x : ℚ
  y : ℚ
deriving DecidableEq, Repr

/-- `geo_types::LineString`: an ordered list of coordinates. -/
abbrev LineString := List Coord

/-- `geo_types::Line`: a directed two-point segment. -/
structure Line where
  start : Coord
  «end» : Coord
deriving DecidableEq, Repr

/-- `geo_types::Point`. -/
abbrev Point := Coord

/-- `geo_types::MultiPoint`. -/
abbrev MultiPoint := List Point

/-- `geo_types::MultiLineString`. -/
abbrev MultiLineString := List LineString

/-- `geo_types::Polygon`: one exterior ring and a list of interior rings. -/
structure Polygon where
  exterior : LineString
  interiors : List LineString
deriving DecidableEq, Repr

/-- `geo_types::MultiPolygon`: a list of polygons (its `.0` field). -/
abbrev MultiPolygon := List Polygon

/-- `geo_types::Triangle`. -/
structure Triangle where
  v0 : Coord
  v1 : Coord
  v2 : Coord
deriving DecidableEq, Repr

/-- `geo_types::Rect` as its two corner coordinates. -/
structure Rect where
  min : Coord
  max : Coord
deriving DecidableEq, Repr

/-- Ring closing of `geo_types::LineString::close`: if the first and last
coordinates differ, the first coordinate is appended. -/
def LineString.close (ls : LineString) : LineString :=
  if ls.head? = ls.getLast? then ls else ls ++ ls.head?.toList

/-- `geo_types::Polygon::new`: stores the rings after closing each of them. -/
def Polygon.new (exterior : LineString) (interiors : List LineString) : Polygon :=
  ⟨exterior.close, interiors.map LineString.close⟩

/-- `geo_types::Triangle::to_polygon`: polygon on the three vertices. -/
def Triangle.to_polygon (t : Triangle) : Polygon :=
  Polygon.new [t.v0, t.v1, t.v2] []

/-- `geo_types::Rect::to_polygon`: the four corners as a closed ring. -/
def Rect.to_polygon (r : Rect) : Polygon :=
  Polygon.new
    [⟨r.min.x, r.min.y⟩, ⟨r.max.x, r.min.y⟩, ⟨r.max.x, r.max.y⟩,
     ⟨r.min.x, r.max.y⟩, ⟨r.min.x, r.min.y⟩] []

/-- `geo_types::LineString::lines`: the list of consecutive two-point
segments of a polyline. -/
def LineString.lines : LineString → List Line
  | c1 :: c2 :: rest => ⟨c1, c2⟩ :: LineString.lines (c2 :: rest)
  | _ => []

/-- The numeric interface the source obtains from its `CoordFloat + Float`
trait bounds: transcendental functions and the constant π, abstract over the
rational carrier.  `atan2 y x` takes the y component first, as in Rust. -/
structure FloatOps where
  cos : ℚ → ℚ
  sin : ℚ → ℚ
  atan2 : ℚ → ℚ → ℚ
  sqrt : ℚ → ℚ
  pi : ℚ

/-- The boolean-polygon-algebra collaborator (`geo_booleanop`): the four
`union` / `difference` entry points the source calls, one per pair of
operand types it is used at. -/
structure BoolOps where
  unionMM : MultiPolygon → MultiPolygon → MultiPolygon
  unionPM : Polygon → MultiPolygon → MultiPolygon
  diffMM : MultiPolygon → MultiPolygon → MultiPolygon
  diffPM : Polygon → MultiPolygon → MultiPolygon
  diffMP : MultiPolygon → Polygon → MultiPolygon

/-- Modelled from the spec: the edge error raised when a zero-length
segment is encountered where a normal direction is required (the `EdgeError`
enum lives in a module of this repository outside the given source file). -/
inductive EdgeError where
  | verticesNotSeparated
deriving DecidableEq, Repr

/-- `OffsetError`: the only error kind wraps an `EdgeError`. -/
inductive OffsetError where
  | edgeError (e : EdgeError)
deriving DecidableEq, Repr

/-- Arcs around corners are made of 5 segments by default. -/
def DEFAULT_ARC_SEGMENTS : Nat := 5

/-- Modelled from the spec: `Edge`, an ordered pair of coordinates
representing a directed segment — fields named `current` and `next` as the
source accesses them (the `Edge` struct lives in a module of this repository
outside the given source file). -/
structure Edge where
  current : Coord
  next : Coord
deriving DecidableEq, Repr

/-- Modelled from the spec: `Edge::new` constructs the edge from its two
endpoints. -/
def Edge.new (v1 v2 : Coord) : Edge := ⟨v1, v2⟩

/-- Modelled from the spec: the unit inward normal of a directed segment,
its direction vector rotated by +90°, scaled to unit length; fails with an
`EdgeError` on degenerate (zero-length) input. -/
def Edge.inwards_normal (ops : FloatOps) (e : Edge) : Except EdgeError Coord :=
  if e.current = e.next then
    .error .verticesNotSeparated
  else
    let dx := e.next.x - e.current.x
    let dy := e.next.y - e.current.y
    let len := ops.sqrt (dx * dx + dy * dy)
    .ok ⟨-dy / len, dx / len⟩

/-- Modelled from the spec: the unit outward normal, the direction vector
rotated by −90°; fails with an `EdgeError` on degenerate input. -/
def Edge.outwards_normal (ops : FloatOps) (e : Edge) : Except EdgeError Coord :=
  if e.current = e.next then
    .error .verticesNotSeparated
  else
    let dx := e.next.x - e.current.x
    let dy := e.next.y - e.current.y
    let len := ops.sqrt (dx * dx + dy * dy)
    .ok ⟨dy / len, -dx / len⟩

/-- Modelled from the spec: `Edge::with_offset` translates both endpoints of
the edge by the given vector (the forward offset copy). -/
def Edge.with_offset (e : Edge) (dx dy : ℚ) : Edge :=
  ⟨⟨e.current.x + dx, e.current.y + dy⟩, ⟨e.next.x + dx, e.next.y + dy⟩⟩

/-- Modelled from the spec: `Edge::inverse_with_offset` translates both
endpoints and reverses their order (the reversed offset copy, so a closed
loop can be walked around the segment). -/
def Edge.inverse_with_offset (e : Edge) (dx dy : ℚ) : Edge :=
  ⟨⟨e.next.x + dx, e.next.y + dy⟩, ⟨e.current.x + dx, e.current.y + dy⟩⟩

/-- Wrapping `u32` subtraction, as performed by `segment_count - 1`. -/
def u32sub (a b : Nat) : Nat := (a + 2 ^ 32 - b) % 2 ^ 32

/-- Whether the `u32` subtraction `a - b` underflows. -/
def u32subUnderflows (a b : Nat) : Bool := a < b

/-- `circle_frag(frags) = 2π / frags`, the angular quantum of a full circle
divided into `frags` parts. -/
def circle_frag (ops : FloatOps) (frags : Nat) : ℚ := 2 * ops.pi / (frags : ℚ)

/-- The body of the `for _ in 0..vertice_count` loop of the `Point`
offsetter: each iteration first advances the mutable `angle` by `frag` and
then emits the coordinate at that angle on the circle of radius `distance`
around `p`. -/
def pointContourAux (ops : FloatOps) (p : Coord) (distance frag : ℚ) :
    ℚ → Nat → List Coord
  | _, 0 => []
  | angle, k + 1 =>
    ⟨p.x + distance * ops.cos (angle + frag), p.y + distance * ops.sin (angle + frag)⟩ ::
      pointContourAux ops p distance frag (angle + frag) k

/-- `Offset for geo_types::Point::offset_with_arc_segments`: negative
distance yields the empty `MultiPolygon`; otherwise a circle contour with
`arc_segments * 2` vertices, bumped by one when that count is even. -/
def point_offset_with_arc_segments (ops : FloatOps) (p : Point) (distance : ℚ)
    (arc_segments : Nat) : Except OffsetError MultiPolygon :=
  if distance < 0 then
    .ok []
  else
    let count := arc_segments * 2 % 2 ^ 32
    let vertice_count := if count % 2 = 0 then count + 1 else count
    let contour :=
      pointContourAux ops p distance (circle_frag ops vertice_count) 0 vertice_count
    .ok [Polygon.new contour []]

/-- The body of the `for i in 1..segment_count` loop of `create_arc`:
`fuel` remaining iterations starting at loop index `i`, emitting the point
at angle `start_angle + segment_angle * i` on the circle of the given radius
around `center`. -/
def arcPoints (ops : FloatOps) (center : Coord) (radius start_angle segment_angle : ℚ) :
    Nat → Nat → List Coord
  | _, 0 => []
  | i, fuel + 1 =>
    ⟨center.x + ops.cos (start_angle + segment_angle * (i : ℚ)) * radius,
     center.y + ops.sin (start_angle + segment_angle * (i : ℚ)) * radius⟩ ::
      arcPoints ops center radius start_angle segment_angle (i + 1) fuel

/-- `EnrichedFloat::create_arc`: appends to `vertices` the polyline
approximating the arc around `center` from `start_vertex` to `end_vertex`;
angles are normalized into `[0, 2π)`, an even `segment_count` is decremented
by one (wrapping `u32` subtraction), the swept angle is measured clockwise,
and the per-step increment is `−angle` for an outward arc and `2π − angle`
otherwise, divided by the segment count. -/
def create_arc (ops : FloatOps) (vertices : List Coord) (center : Coord) (radius : ℚ)
    (start_vertex end_vertex : Coord) (segment_count : Nat) (outwards : Bool) :
    List Coord :=
  let pi2 := ops.pi * 2
  let start_angle := ops.atan2 (start_vertex.y - center.y) (start_vertex.x - center.x)
  let start_angle := if start_angle < 0 then start_angle + pi2 else start_angle
  let end_angle := ops.atan2 (end_vertex.y - center.y) (end_vertex.x - center.x)
  let end_angle := if end_angle < 0 then end_angle + pi2 else end_angle
  let segment_count := if segment_count % 2 = 0 then u32sub segment_count 1 else segment_count
  let angle :=
    if start_angle > end_angle then start_angle - end_angle
    else start_angle + pi2 - end_angle
  let segment_angle := (if outwards then -angle else pi2 - angle) / (segment_count : ℚ)
  vertices ++ [start_vertex] ++
    arcPoints ops center radius start_angle segment_angle 1 (segment_count - 1) ++
    [end_vertex]

/-- `Offset for geo_types::Line::offset_with_arc_segments`: negative
distance yields the empty result; otherwise, when both normals of the edge
exist, the stadium polygon built from the two translated edge copies joined
by two arcs (both with `outwards = true`); when normal computation fails
(degenerate edge), the point fallback at the line's start. -/
def line_offset_with_arc_segments (ops : FloatOps) (line : Line) (distance : ℚ)
    (arc_segments : Nat) : Except OffsetError MultiPolygon :=
  if distance < 0 then
    .ok []
  else
    let v1 := line.start
    let v2 := line.«end»
    let e1 := Edge.new v1 v2
    match e1.inwards_normal ops, e1.outwards_normal ops with
    | .ok in_normal, .ok out_normal =>
      let offset0 := e1.with_offset (in_normal.x * distance) (in_normal.y * distance)
      let offset1 := e1.inverse_with_offset (out_normal.x * distance) (out_normal.y * distance)
      let vertices := create_arc ops [] v1 distance offset1.next offset0.current arc_segments true
      let vertices := create_arc ops vertices v2 distance offset0.next offset1.current arc_segments true
      .ok [Polygon.new vertices []]
    | _, _ => point_offset_with_arc_segments ops v1 distance arc_segments

/-- The `for line in self.lines()` loop of the `LineString` offsetter:
fold the offsets of the constituent segments into `acc` with boolean union,
short-circuiting on the first error (the `?` operator). -/
def lineStringUnionFold (B : BoolOps) (ops : FloatOps) (distance : ℚ) (arc_segments : Nat)
    (acc : MultiPolygon) : List Line → Except OffsetError MultiPolygon
  | [] => .ok acc
  | l :: rest =>
    match line_offset_with_arc_segments ops l distance arc_segments with
    | .error e => .error e
    | .ok r => lineStringUnionFold B ops distance arc_segments (B.unionMM acc r) rest

/-- `Offset for geo_types::LineString::offset_with_arc_segments`: negative
distance yields the empty result; otherwise union the per-segment stadiums,
then rebuild the result by seeding with the first polygon of the union (or
nothing when it is empty) and folding boolean difference over the
remaining polygons. -/
def line_string_offset_with_arc_segments (B : BoolOps) (ops : FloatOps) (ls : LineString)
    (distance : ℚ) (arc_segments : Nat) : Except OffsetError MultiPolygon :=
  if distance < 0 then
    .ok []
  else
    match lineStringUnionFold B ops distance arc_segments [] ls.lines with
    | .error e => .error e
    | .ok u =>
      .ok ((u.drop 1).foldl (fun result hole => B.diffMP result hole)
        ((u.head?.map (fun polygon => [polygon])).getD []))

/-- The member loop of the `MultiLineString` offsetter: fold each
polyline's offset into `acc` with boolean union, short-circuiting on the
first error. -/
def multiLineStringUnionFold (B : BoolOps) (ops : FloatOps) (distance : ℚ)
    (arc_segments : Nat) (acc : MultiPolygon) : List LineString → Except OffsetError MultiPolygon
  | [] => .ok acc
  | ls :: rest =>
    match line_string_offset_with_arc_segments B ops ls distance arc_segments with
    | .error e => .error e
    | .ok r => multiLineStringUnionFold B ops distance arc_segments (B.unionMM acc r) rest

/-- `Offset for geo_types::MultiLineString::offset_with_arc_segments`. -/
def multi_line_string_offset_with_arc_segments (B : BoolOps) (ops : FloatOps)
    (mls : MultiLineString) (distance : ℚ) (arc_segments : Nat) :
    Except OffsetError MultiPolygon :=
  if distance < 0 then
    .ok []
  else
    multiLineStringUnionFold B ops distance arc_segments [] mls

/-- The member loop of the `MultiPoint` offsetter. -/
def multiPointUnionFold (B : BoolOps) (ops : FloatOps) (distance : ℚ) (arc_segments : Nat)
    (acc : MultiPolygon) : List Point → Except OffsetError MultiPolygon
  | [] => .ok acc
  | p :: rest =>
    match point_offset_with_arc_segments ops p distance arc_segments with
    | .error e => .error e
    | .ok r => multiPointUnionFold B ops distance arc_segments (B.unionMM acc r) rest

/-- `Offset for geo_types::MultiPoint::offset_with_arc_segments`. -/
def multi_point_offset_with_arc_segments (B : BoolOps) (ops : FloatOps) (mp : MultiPoint)
    (distance : ℚ) (arc_segments : Nat) : Except OffsetError MultiPolygon :=
  if distance < 0 then
    .ok []
  else
    multiPointUnionFold B ops distance arc_segments [] mp

/-- `Offset for geo_types::Polygon::offset_with_arc_segments`: offset the
exterior ring and the interior rings (as a `MultiLineString`) with the
magnitude of the distance, then compose with boolean union on dilation
(`is_sign_positive`) and boolean difference on erosion. -/
def polygon_offset_with_arc_segments (B : BoolOps) (ops : FloatOps) (p : Polygon)
    (distance : ℚ) (arc_segments : Nat) : Except OffsetError MultiPolygon :=
  match line_string_offset_with_arc_segments B ops p.exterior |distance| arc_segments with
  | .error e => .error e
  | .ok exterior_with_offset =>
    match multi_line_string_offset_with_arc_segments B ops p.interiors |distance| arc_segments with
    | .error e => .error e
    | .ok interiors_with_offset =>
      .ok (if 0 ≤ distance then
        B.unionMM (B.unionPM p exterior_with_offset) interiors_with_offset
      else
        B.diffMM (B.diffPM p exterior_with_offset) interiors_with_offset)

/-- The member loop of the `MultiPolygon` offsetter (no sign check:
each member polygon handles the sign itself). -/
def multiPolygonUnionFold (B : BoolOps) (ops : FloatOps) (distance : ℚ) (arc_segments : Nat)
    (acc : MultiPolygon) : List Polygon → Except OffsetError MultiPolygon
  | [] => .ok acc
  | p :: rest =>
    match polygon_offset_with_arc_segments B ops p distance arc_segments with
    | .error e => .error e
    | .ok r => multiPolygonUnionFold B ops distance arc_segments (B.unionMM acc r) rest

/-- `Offset for geo_types::MultiPolygon::offset_with_arc_segments`. -/
def multi_polygon_offset_with_arc_segments (B : BoolOps) (ops : FloatOps)
    (mp : MultiPolygon) (distance : ℚ) (arc_segments : Nat) :
    Except OffsetError MultiPolygon :=
  multiPolygonUnionFold B ops distance arc_segments [] mp

/-- `geo_types::Geometry`: the closed set of shape variants the dispatcher
matches on; a `GeometryCollection` holds a list of geometries. -/
inductive Geometry where
  | point (p : Point)
  | line (l : Line)
  | lineString (ls : LineString)
  | triangle (t : Triangle)
  | rect (r : Rect)
  | polygon (p : Polygon)
  | multiPoint (mp : MultiPoint)
  | multiLineString (mls : MultiLineString)
  | multiPolygon (mp : MultiPolygon)
  | geometryCollection (gs : List Geometry)

/-- `geo_types::GeometryCollection`: a list of geometries (its `.0`). -/
abbrev GeometryCollection := List Geometry

mutual

/-- `Offset for geo_types::Geometry::offset_with_arc_segments`: type-directed
dispatch to the per-variant offsetters; `Triangle` and `Rect` convert to a
`Polygon` first. -/
def geometry_offset_with_arc_segments (B : BoolOps) (ops : FloatOps) (g : Geometry)
    (distance : ℚ) (arc_segments : Nat) : Except OffsetError MultiPolygon :=
  match g with
  | .point p => point_offset_with_arc_segments ops p distance arc_segments
  | .line l => line_offset_with_arc_segments ops l distance arc_segments
  | .lineString ls => line_string_offset_with_arc_segments B ops ls distance arc_segments
  | .triangle t => polygon_offset_with_arc_segments B ops t.to_polygon distance arc_segments
  | .rect r => polygon_offset_with_arc_segments B ops r.to_polygon distance arc_segments
  | .polygon p => polygon_offset_with_arc_segments B ops p distance arc_segments
  | .multiPoint mp => multi_point_offset_with_arc_segments B ops mp distance arc_segments
  | .multiLineString mls =>
    multi_line_string_offset_with_arc_segments B ops mls distance arc_segments
  | .multiPolygon mp => multi_polygon_offset_with_arc_segments B ops mp distance arc_segments
  | .geometryCollection gs => geometryCollectionUnionFold B ops distance arc_segments [] gs

/-- The member loop of the `GeometryCollection` offsetter: fold each
member's offset into `acc` with boolean union, short-circuiting on the
first error. -/
def geometryCollectionUnionFold (B : BoolOps) (ops : FloatOps) (distance : ℚ)
    (arc_segments : Nat) (acc : MultiPolygon) (gs : List Geometry) :
    Except OffsetError MultiPolygon :=
  match gs with
  | [] => .ok acc
  | g :: rest =>
    match geometry_offset_with_arc_segments B ops g distance arc_segments with
    | .error e => .error e
    | .ok r => geometryCollectionUnionFold B ops distance arc_segments (B.unionMM acc r) rest

end

/-- `Offset for geo_types::GeometryCollection::offset_with_arc_segments`. -/
def geometry_collection_offset_with_arc_segments (B : BoolOps) (ops : FloatOps)
    (gc : GeometryCollection) (distance : ℚ) (arc_segments : Nat) :
    Except OffsetError MultiPolygon :=
  geometryCollectionUnionFold B ops distance arc_segments [] gc

/-- The provided `Offset::offset` method: offsetting with the default arc
resolution. -/
def geometry_offset (B : BoolOps) (ops : FloatOps) (g : Geometry) (distance : ℚ) :
    Except OffsetError MultiPolygon :=
  geometry_offset_with_arc_segments B ops g distance DEFAULT_ARC_SEGMENTS

/-- A concrete instantiation of the numeric interface on rationals, used to
exercise the generic definitions on explicit inputs: `cos` is the identity
(making the planar embedding of angles injective in its first component),
`sin` is constantly zero, `atan2 y x = y - x`, `sqrt` is the identity and π
is 3. -/
def idTrig : FloatOps where
  cos := fun θ => θ
  sin := fun _ => 0
  atan2 := fun y x => y - x
  sqrt := fun q => q
  pi := 3

/-- A concrete instantiation of the boolean-engine interface, used to
exercise the generic definitions on explicit inputs: union concatenates,
difference keeps its left operand. -/
def listBoolOps : BoolOps where
  unionMM := fun a b => a ++ b
  unionPM := fun p m => p :: m
  diffMM := fun a _ => a
  diffPM := fun p _ => [p]
  diffMP := fun a _ => a

/-! ### Totality helpers: every offsetter returns `Ok` -/

theorem point_offset_ok (ops : FloatOps) (p : Point) (d : ℚ) (n : Nat) :
    ∃ m, point_offset_with_arc_segments ops p d n = .ok m := by
  unfold point_offset_with_arc_segments
  split <;> exact ⟨_, rfl⟩

theorem line_offset_ok (ops : FloatOps) (l : Line) (d : ℚ) (n : Nat) :
    ∃ m, line_offset_with_arc_segments ops l d n = .ok m := by
  unfold line_offset_with_arc_segments
  split
  · exact ⟨_, rfl⟩
  · cases h1 : Edge.inwards_normal ops (Edge.new l.start l.«end») with
    | error e1 =>
      cases h2 : Edge.outwards_normal ops (Edge.new l.start l.«end») with
      | error e2 => simp only [h1, h2]; exact point_offset_ok ops _ d n
      | ok o => simp only [h1, h2]; exact point_offset_ok ops _ d n
    | ok i =>
      cases h2 : Edge.outwards_normal ops (Edge.new l.start l.«end») with
      | error e2 => simp only [h1, h2]; exact point_offset_ok ops _ d n
      | ok o => simp only [h1, h2]; exact ⟨_, rfl⟩

theorem lineStringUnionFold_ok (B : BoolOps) (ops : FloatOps) (d : ℚ) (n : Nat) :
    ∀ lines : List Line, ∀ acc : MultiPolygon,
      ∃ m, lineStringUnionFold B ops d n acc lines = .ok m
  | [], acc => ⟨acc, rfl⟩
  | l :: rest, acc => by
    obtain ⟨r, hr⟩ := line_offset_ok ops l d n
    rw [lineStringUnionFold, hr]
    exact lineStringUnionFold_ok B ops d n rest (B.unionMM acc r)

theorem line_string_offset_ok (B : BoolOps) (ops : FloatOps) (ls : LineString) (d : ℚ)
    (n : Nat) : ∃ m, line_string_offset_with_arc_segments B ops ls d n = .ok m := by
  unfold line_string_offset_with_arc_segments
  split
  · exact ⟨_, rfl⟩
  · obtain ⟨u, hu⟩ := lineStringUnionFold_ok B ops d n ls.lines []
    rw [hu]
    exact ⟨_, rfl⟩

theorem multiLineStringUnionFold_ok (B : BoolOps) (ops : FloatOps) (d : ℚ) (n : Nat) :
    ∀ lss : List LineString, ∀ acc : MultiPolygon,
      ∃ m, multiLineStringUnionFold B ops d n acc lss = .ok m
  | [], acc => ⟨acc, rfl⟩
  | ls :: rest, acc => by
    obtain ⟨r, hr⟩ := line_string_offset_ok B ops ls d n
    rw [multiLineStringUnionFold, hr]
    exact multiLineStringUnionFold_ok B ops d n rest (B.unionMM acc r)

theorem multi_line_string_offset_ok (B : BoolOps) (ops : FloatOps) (mls : MultiLineString)
    (d : ℚ) (n : Nat) :
    ∃ m, multi_line_string_offset_with_arc_segments B ops mls d n = .ok m := by
  unfold multi_line_string_offset_with_arc_segments
  split
  · exact ⟨_, rfl⟩
  · exact multiLineStringUnionFold_ok B ops d n mls []

theorem multiPointUnionFold_ok (B : BoolOps) (ops : FloatOps) (d : ℚ) (n : Nat) :
    ∀ ps : List Point, ∀ acc : MultiPolygon,
      ∃ m, multiPointUnionFold B ops d n acc ps = .ok m
  | [], acc => ⟨acc, rfl⟩
  | p :: rest, acc => by
    obtain ⟨r, hr⟩ := point_offset_ok ops p d n
    rw [multiPointUnionFold, hr]
    exact multiPointUnionFold_ok B ops d n rest (B.unionMM acc r)

theorem multi_point_offset_ok (B : BoolOps) (ops : FloatOps) (mp : MultiPoint) (d : ℚ)
    (n : Nat) : ∃ m, multi_point_offset_with_arc_segments B ops mp d n = .ok m := by
  unfold multi_point_offset_with_arc_segments
  split
  · exact ⟨_, rfl⟩
  · exact multiPointUnionFold_ok B ops d n mp []

theorem polygon_offset_ok (B : BoolOps) (ops : FloatOps) (p : Polygon) (d : ℚ) (n : Nat) :
    ∃ m, polygon_offset_with_arc_segments B ops p d n = .ok m := by
  unfold polygon_offset_with_arc_segments
  obtain ⟨e, he⟩ := line_string_offset_ok B ops p.exterior |d| n
  obtain ⟨i, hi⟩ := multi_line_string_offset_ok B ops p.interiors |d| n
  rw [he, hi]
  exact ⟨_, rfl⟩

theorem multiPolygonUnionFold_cons (B : BoolOps) (ops : FloatOps) (d : ℚ) (n : Nat)
    (acc : MultiPolygon) (p : Polygon) (rest : List Polygon) :
    multiPolygonUnionFold B ops d n acc (p :: rest) =
      match polygon_offset_with_arc_segments B ops p d n with
      | .error e => .error e
      | .ok r => multiPolygonUnionFold B ops d n (B.unionMM acc r) rest := rfl

theorem multiPolygonUnionFold_ok (B : BoolOps) (ops : FloatOps) (d : ℚ) (n : Nat)
    (ps : List Polygon) : ∀ acc : MultiPolygon,
      ∃ m, multiPolygonUnionFold B ops d n acc ps = .ok m := by
  induction ps with
  | nil => exact fun acc => ⟨acc, rfl⟩
  | cons p rest ih =>
    intro acc
    obtain ⟨r, hr⟩ := polygon_offset_ok B ops p d n
    rw [multiPolygonUnionFold_cons, hr]
    exact ih (B.unionMM acc r)

theorem multi_polygon_offset_ok (B : BoolOps) (ops : FloatOps) (mp : MultiPolygon) (d : ℚ)
    (n : Nat) : ∃ m, multi_polygon_offset_with_arc_segments B ops mp d n = .ok m :=
  multiPolygonUnionFold_ok B ops d n mp []

mutual

theorem geometry_offset_with_arc_segments_ok (B : BoolOps) (ops : FloatOps) (g : Geometry)
    (d : ℚ) (n : Nat) : ∃ m, geometry_offset_with_arc_segments B ops g d n = .ok m :=
  match g with
  | .point p => point_offset_ok ops p d n
  | .line l => line_offset_ok ops l d n
  | .lineString ls => line_string_offset_ok B ops ls d n
  | .triangle t => polygon_offset_ok B ops t.to_polygon d n
  | .rect r => polygon_offset_ok B ops r.to_polygon d n
  | .polygon p => polygon_offset_ok B ops p d n
  | .multiPoint mp => multi_point_offset_ok B ops mp d n
  | .multiLineString mls => multi_line_string_offset_ok B ops mls d n
  | .multiPolygon mp => multi_polygon_offset_ok B ops mp d n
  | .geometryCollection gs => geometryCollectionUnionFold_ok B ops d n [] gs

theorem geometryCollectionUnionFold_ok (B : BoolOps) (ops : FloatOps) (d : ℚ) (n : Nat)
    (acc : MultiPolygon) (gs : List Geometry) :
    ∃ m, geometryCollectionUnionFold B ops d n acc gs = .ok m :=
  match gs with
  | [] => ⟨acc, rfl⟩
  | g :: rest => by
    obtain ⟨r, hr⟩ := geometry_offset_with_arc_segments_ok B ops g d n
    rw [geometryCollectionUnionFold, hr]
    exact geometryCollectionUnionFold_ok B ops d n (B.unionMM acc r) rest

end

/-! ### Closed forms for the two loops -/

theorem arcPoints_eq (ops : FloatOps) (c : Coord) (r sa st : ℚ) :
    ∀ fuel i, arcPoints ops c r sa st i fuel =
      (List.range fuel).map (fun j =>
        ⟨c.x + ops.cos (sa + st * ((i + j : ℕ) : ℚ)) * r,
         c.y + ops.sin (sa + st * ((i + j : ℕ) : ℚ)) * r⟩)
  | 0, _ => rfl
  | fuel + 1, i => by
    rw [arcPoints, arcPoints_eq ops c r sa st fuel (i + 1), List.range_succ_eq_map,
      List.map_cons, List.map_map]
    refine List.cons_eq_cons.mpr ⟨?_, ?_⟩
    · simp only [Nat.add_zero]
    · refine List.map_congr_left fun j hj => ?_
      have hx : i + 1 + j = i + (j + 1) := by omega
      simp only [Function.comp_apply, Nat.succ_eq_add_one, hx]

theorem pointContourAux_eq (ops : FloatOps) (p : Coord) (d frag : ℚ) :
    ∀ k angle, pointContourAux ops p d frag angle k =
      (List.range k).map (fun j =>
        ⟨p.x + d * ops.cos (angle + frag * (((j : ℕ) : ℚ) + 1)),
         p.y + d * ops.sin (angle + frag * (((j : ℕ) : ℚ) + 1))⟩)
  | 0, _ => rfl
  | k + 1, angle => by
    rw [pointContourAux, pointContourAux_eq ops p d frag k (angle + frag),
      List.range_succ_eq_map, List.map_cons, List.map_map]
    refine List.cons_eq_cons.mpr ⟨?_, ?_⟩
    · have h0 : angle + frag * (((0 : ℕ) : ℚ) + 1) = angle + frag := by push_cast; ring
      simp only [h0]
    · refine List.map_congr_left fun j hj => ?_
      simp only [Function.comp_apply, Nat.succ_eq_add_one]
      rw [show angle + frag + frag * ((j : ℚ) + 1) =
          angle + frag * (((j + 1 : ℕ) : ℚ) + 1) from by push_cast; ring]

theorem pointContourAux_length (ops : FloatOps) (p : Coord) (d frag : ℚ) (k : Nat)
    (angle : ℚ) : (pointContourAux ops p d frag angle k).length = k := by
  rw [pointContourAux_eq]
  simp

theorem arcPoints_length (ops : FloatOps) (c : Coord) (r sa st : ℚ) (fuel i : Nat) :
    (arcPoints ops c r sa st i fuel).length = fuel := by
  rw [arcPoints_eq]
  simp

theorem line_offset_degenerate_eq (ops : FloatOps) (l : Line) (d : ℚ) (n : Nat)
    (h : l.start = l.«end») :
    line_offset_with_arc_segments ops l d n =
      point_offset_with_arc_segments ops l.start d n := by
  have h1 : Edge.inwards_normal ops (Edge.new l.start l.«end») =
      .error .verticesNotSeparated := by
    simp only [Edge.inwards_normal, Edge.new]
    rw [if_pos h]
  have h2 : Edge.outwards_normal ops (Edge.new l.start l.«end») =
      .error .verticesNotSeparated := by
    simp only [Edge.outwards_normal, Edge.new]
    rw [if_pos h]
  unfold line_offset_with_arc_segments
  split
  · rename_i hd
    unfold point_offset_with_arc_segments
    rw [if_pos hd]
  · simp only [h1, h2]

/-! ### Claims -/

/-- C2: for every Point, Line, LineString, MultiPoint or MultiLineString and
every distance < 0, `offset_with_arc_segments` (and hence `offset`, which
delegates to it with the default resolution) returns `Ok` of the empty
`MultiPolygon`, for every `arc_segments` value. -/
theorem negative_distance_open_shapes_empty (B : BoolOps) (ops : FloatOps) (p : Point)
    (l : Line) (ls : LineString) (mp : MultiPoint) (mls : MultiLineString) (d : ℚ)
    (n : Nat) (hd : d < 0) :
    point_offset_with_arc_segments ops p d n = .ok [] ∧
    line_offset_with_arc_segments ops l d n = .ok [] ∧
    line_string_offset_with_arc_segments B ops ls d n = .ok [] ∧
    multi_point_offset_with_arc_segments B ops mp d n = .ok [] ∧
    multi_line_string_offset_with_arc_segments B ops mls d n = .ok [] := by
  unfold point_offset_with_arc_segments line_offset_with_arc_segments
    line_string_offset_with_arc_segments multi_point_offset_with_arc_segments
    multi_line_string_offset_with_arc_segments
  refine ⟨?_, ?_, ?_, ?_, ?_⟩ <;> rw [if_pos hd]

theorem negative_distance_open_shapes_empty_witness :
    (-1 : ℚ) < 0 ∧
    (point_offset_with_arc_segments idTrig ⟨0, 0⟩ (-1) 5 = .ok [] ∧
     line_offset_with_arc_segments idTrig ⟨⟨0, 0⟩, ⟨1, 0⟩⟩ (-1) 5 = .ok [] ∧
     line_string_offset_with_arc_segments listBoolOps idTrig [⟨0, 0⟩, ⟨1, 0⟩] (-1) 5 = .ok [] ∧
     multi_point_offset_with_arc_segments listBoolOps idTrig [⟨0, 0⟩] (-1) 5 = .ok [] ∧
     multi_line_string_offset_with_arc_segments listBoolOps idTrig [[⟨0, 0⟩, ⟨1, 0⟩]] (-1) 5
       = .ok []) :=
  ⟨by norm_num,
   negative_distance_open_shapes_empty listBoolOps idTrig ⟨0, 0⟩ ⟨⟨0, 0⟩, ⟨1, 0⟩⟩
     [⟨0, 0⟩, ⟨1, 0⟩] [⟨0, 0⟩] [[⟨0, 0⟩, ⟨1, 0⟩]] (-1) 5 (by norm_num)⟩

/-- C3: for every `Line` whose start equals its end, every distance and
every `arc_segments`, the line offsetter does not fail and returns exactly
the same `MultiPolygon` as the point offsetter at that location with the
same distance and `arc_segments`. -/
theorem degenerate_line_offset_eq_point_offset (ops : FloatOps) (l : Line) (d : ℚ)
    (n : Nat) (h : l.start = l.«end») :
    line_offset_with_arc_segments ops l d n =
      point_offset_with_arc_segments ops l.start d n :=
  line_offset_degenerate_eq ops l d n h

theorem degenerate_line_offset_eq_point_offset_witness :
    (Line.mk ⟨1, 2⟩ ⟨1, 2⟩).start = (Line.mk ⟨1, 2⟩ ⟨1, 2⟩).«end» ∧
    line_offset_with_arc_segments idTrig ⟨⟨1, 2⟩, ⟨1, 2⟩⟩ 1 2 =
      point_offset_with_arc_segments idTrig (Line.mk ⟨1, 2⟩ ⟨1, 2⟩).start 1 2 :=
  ⟨rfl, degenerate_line_offset_eq_point_offset idTrig ⟨⟨1, 2⟩, ⟨1, 2⟩⟩ 1 2 rfl⟩

/-- C4: for every polygon, the offset equals
`polygon ∪ offset(exterior, |d|) ∪ offset(interiors, |d|)` when `d ≥ 0` and
`polygon − offset(exterior, |d|) − offset(interiors, |d|)` when `d < 0`,
the rings being offset under the polyline rule at the magnitude of the
distance. -/
theorem polygon_offset_union_difference (B : BoolOps) (ops : FloatOps) (p : Polygon)
    (d : ℚ) (n : Nat) :
    ∃ E I, line_string_offset_with_arc_segments B ops p.exterior |d| n = .ok E ∧
      multi_line_string_offset_with_arc_segments B ops p.interiors |d| n = .ok I ∧
      polygon_offset_with_arc_segments B ops p d n =
        .ok (if 0 ≤ d then B.unionMM (B.unionPM p E) I
             else B.diffMM (B.diffPM p E) I) := by
  obtain ⟨E, hE⟩ := line_string_offset_ok B ops p.exterior |d| n
  obtain ⟨I, hI⟩ := multi_line_string_offset_ok B ops p.interiors |d| n
  refine ⟨E, I, hE, hI, ?_⟩
  unfold polygon_offset_with_arc_segments
  rw [hE, hI]

/-- C5: when offsetting a `LineString` with distance ≥ 0, the union of the
per-segment stadiums is rebuilt by taking its first polygon as the outer
piece and folding boolean difference over every remaining polygon in order;
an empty union yields the empty `MultiPolygon`. -/
theorem line_string_offset_rebuild (B : BoolOps) (ops : FloatOps) (ls : LineString)
    (d : ℚ) (n : Nat) (hd : 0 ≤ d) :
    ∃ u, lineStringUnionFold B ops d n [] ls.lines = .ok u ∧
      line_string_offset_with_arc_segments B ops ls d n =
        .ok (match u with
             | [] => []
             | outer :: rest =>
               rest.foldl (fun result hole => B.diffMP result hole) [outer]) := by
  obtain ⟨u, hu⟩ := lineStringUnionFold_ok B ops d n ls.lines []
  refine ⟨u, hu, ?_⟩
  unfold line_string_offset_with_arc_segments
  rw [if_neg (not_lt.mpr hd), hu]
  cases u with
  | nil => rfl
  | cons outer rest => rfl

theorem line_string_offset_rebuild_witness :
    (0 : ℚ) ≤ 1 ∧
    ∃ u, lineStringUnionFold listBoolOps idTrig 1 1 [] (LineString.lines [⟨0, 0⟩, ⟨1, 0⟩])
        = .ok u ∧
      line_string_offset_with_arc_segments listBoolOps idTrig [⟨0, 0⟩, ⟨1, 0⟩] 1 1 =
        .ok (match u with
             | [] => []
             | outer :: rest =>
               rest.foldl (fun result hole => listBoolOps.diffMP result hole) [outer]) :=
  ⟨by norm_num, line_string_offset_rebuild listBoolOps idTrig [⟨0, 0⟩, ⟨1, 0⟩] 1 1 (by norm_num)⟩

/-- C1 counterexample: a `LineString` made of a single degenerate
(zero-length) segment does not produce `Err(OffsetError::EdgeError(..))` —
the offset succeeds, because the line offsetter recovers with the point
fallback. -/
theorem degenerate_line_string_is_ok :
    (line_string_offset_with_arc_segments listBoolOps idTrig [⟨0, 0⟩, ⟨0, 0⟩] 1 5).isOk
      = true := by
  obtain ⟨m, hm⟩ := line_string_offset_ok listBoolOps idTrig [⟨0, 0⟩, ⟨0, 0⟩] 1 5
  rw [hm]
  rfl

/-- C1 amended: a degenerate constituent segment of a `LineString` never
surfaces as an error: the line offsetter is the only consumer of edge
normals and it recovers from their failure by the point fallback, so the
`LineString` offset (and transitively every composing shape's offset)
returns `Ok`. -/
theorem degenerate_segment_recovered (B : BoolOps) (ops : FloatOps) (ls : LineString)
    (c : Coord) (d : ℚ) (n : Nat) (hmem : Line.mk c c ∈ ls.lines) :
    (∃ m, line_string_offset_with_arc_segments B ops ls d n = .ok m) ∧
    line_offset_with_arc_segments ops (Line.mk c c) d n =
      point_offset_with_arc_segments ops c d n :=
  ⟨line_string_offset_ok B ops ls d n,
   line_offset_degenerate_eq ops (Line.mk c c) d n rfl⟩

theorem degenerate_segment_recovered_witness :
    Line.mk ⟨0, 0⟩ ⟨0, 0⟩ ∈ LineString.lines [⟨0, 0⟩, ⟨0, 0⟩] ∧
    ((∃ m, line_string_offset_with_arc_segments listBoolOps idTrig [⟨0, 0⟩, ⟨0, 0⟩] 1 5
        = .ok m) ∧
     line_offset_with_arc_segments idTrig (Line.mk ⟨0, 0⟩ ⟨0, 0⟩) 1 5 =
       point_offset_with_arc_segments idTrig ⟨0, 0⟩ 1 5) :=
  ⟨by decide,
   degenerate_segment_recovered listBoolOps idTrig [⟨0, 0⟩, ⟨0, 0⟩] ⟨0, 0⟩ 1 5 (by decide)⟩

/-- C9: for every input geometry, every distance and every `arc_segments`,
both `offset_with_arc_segments` and the default-resolution `offset` return
`Ok`; the `Err(OffsetError::EdgeError)` outcome of the public interface is
unreachable. -/
theorem offset_err_unreachable (B : BoolOps) (ops : FloatOps) (g : Geometry) (d : ℚ)
    (n : Nat) :
    (∃ m, geometry_offset_with_arc_segments B ops g d n = .ok m) ∧
    (∃ m, geometry_offset B ops g d = .ok m) ∧
    ∀ e : OffsetError, geometry_offset_with_arc_segments B ops g d n ≠ .error e := by
  obtain ⟨m, hm⟩ := geometry_offset_with_arc_segments_ok B ops g d n
  obtain ⟨m2, hm2⟩ := geometry_offset_with_arc_segments_ok B ops g d DEFAULT_ARC_SEGMENTS
  refine ⟨⟨m, hm⟩, ⟨m2, hm2⟩, fun e he => ?_⟩
  rw [hm] at he
  cases he

/-- C10: under the precondition `arc_segments ≥ 1`, the `u32` subtraction
`segment_count - 1` performed by `create_arc` on an even count never
underflows (every even count reaching it is ≥ 2); for `segment_count = 0`
the subtraction underflows, wrapping to `2^32 - 1` and making `create_arc`
emit `2^32` vertices. -/
theorem create_arc_count_subtraction (ops : FloatOps) (vertices : List Coord)
    (center : Coord) (radius : ℚ) (sv ev : Coord) (sc : Nat) (outwards : Bool)
    (h1 : 1 ≤ sc) (h2 : sc % 2 = 0) :
    u32subUnderflows sc 1 = false ∧
    u32subUnderflows 0 1 = true ∧
    (create_arc ops vertices center radius sv ev 0 outwards).length =
      vertices.length + 2 ^ 32 := by
  refine ⟨?_, rfl, ?_⟩
  · simp only [u32subUnderflows, decide_eq_false_iff_not, not_lt]
    omega
  · unfold create_arc
    have hz : u32sub 0 1 = 2 ^ 32 - 1 := by norm_num [u32sub]
    simp [hz, arcPoints_length]

theorem create_arc_count_subtraction_witness :
    1 ≤ 2 ∧ (2 : ℕ) % 2 = 0 ∧
    (u32subUnderflows 2 1 = false ∧
     u32subUnderflows 0 1 = true ∧
     (create_arc idTrig [] ⟨0, 0⟩ 1 ⟨1, 0⟩ ⟨0, 1⟩ 0 true).length =
       List.length ([] : List Coord) + 2 ^ 32) :=
  ⟨by norm_num, by norm_num,
   create_arc_count_subtraction idTrig [] ⟨0, 0⟩ 1 ⟨1, 0⟩ ⟨0, 1⟩ 2 true
     (by norm_num) (by norm_num)⟩

/-- C7: `create_arc` first replaces an even `segment_count` by
`segment_count − 1`; computes start and end angles by `atan2` of
(vertex − center) normalized into `[0, 2π)`; sets the swept angle to
`start_angle − end_angle` when `start_angle > end_angle` and to
`start_angle + 2π − end_angle` otherwise; divides the increment
(`−angle` if outwards, else `2π − angle`) by the normalized count; and
appends exactly the start vertex, `segment_count − 1` interpolated points at
angles `start_angle + step·i` for `i = 1 .. segment_count − 1`, and the end
vertex — normalized `segment_count + 1` vertices in total. -/
theorem create_arc_emits (ops : FloatOps) (vertices : List Coord) (center : Coord)
    (radius : ℚ) (sv ev : Coord) (sc : Nat) (outwards : Bool)
    (sa ea angle step : ℚ) (sc2 : Nat)
    (hsc1 : 1 ≤ sc) (hsc32 : sc < 2 ^ 32)
    (hsa : sa = if ops.atan2 (sv.y - center.y) (sv.x - center.x) < 0 then
        ops.atan2 (sv.y - center.y) (sv.x - center.x) + ops.pi * 2
      else ops.atan2 (sv.y - center.y) (sv.x - center.x))
    (hea : ea = if ops.atan2 (ev.y - center.y) (ev.x - center.x) < 0 then
        ops.atan2 (ev.y - center.y) (ev.x - center.x) + ops.pi * 2
      else ops.atan2 (ev.y - center.y) (ev.x - center.x))
    (hsc2 : sc2 = if sc % 2 = 0 then sc - 1 else sc)
    (hangle : angle = if sa > ea then sa - ea else sa + ops.pi * 2 - ea)
    (hstep : step = (if outwards then -angle else ops.pi * 2 - angle) / (sc2 : ℚ)) :
    create_arc ops vertices center radius sv ev sc outwards =
      vertices ++ [sv] ++
        ((List.range (sc2 - 1)).map fun j =>
          ⟨center.x + ops.cos (sa + step * ((1 + j : ℕ) : ℚ)) * radius,
           center.y + ops.sin (sa + step * ((1 + j : ℕ) : ℚ)) * radius⟩) ++ [ev] ∧
      (create_arc ops vertices center radius sv ev sc outwards).length =
        vertices.length + sc2 + 1 := by
  have hu : u32sub sc 1 = sc - 1 := by
    unfold u32sub
    omega
  subst hstep hangle hea hsa hsc2
  constructor
  · simp only [create_arc]
    rw [arcPoints_eq, hu]
  · simp only [create_arc, List.length_append, List.length_singleton, arcPoints_length, hu]
    split <;> omega

theorem create_arc_emits_witness :
    1 ≤ 4 ∧ (4 : ℕ) < 2 ^ 32 ∧
    (create_arc idTrig [] ⟨0, 0⟩ 1 ⟨1, 0⟩ ⟨0, 1⟩ 4 true).length =
      List.length ([] : List Coord) + 3 + 1 :=
  ⟨by norm_num, by norm_num,
   (create_arc_emits idTrig [] ⟨0, 0⟩ 1 ⟨1, 0⟩ ⟨0, 1⟩ 4 true _ _ _ _ _
     (by norm_num) (by norm_num) rfl rfl rfl rfl rfl).2⟩

/-- C8: for every `Line` with distinct endpoints and distance ≥ 0, the line
offsetter returns `Ok` of exactly one polygon with no interior rings, whose
ring is built from the two translated edge copies (forward copy shifted by
the inward normal, reversed copy shifted by the outward normal) joined by
two arcs generated with `outwards = true`. -/
theorem line_offset_stadium (ops : FloatOps) (l : Line) (d : ℚ) (n : Nat)
    (hne : l.start ≠ l.«end») (hd : 0 ≤ d) :
    ∃ in_normal out_normal : Coord,
      Edge.inwards_normal ops (Edge.new l.start l.«end») = .ok in_normal ∧
      Edge.outwards_normal ops (Edge.new l.start l.«end») = .ok out_normal ∧
      line_offset_with_arc_segments ops l d n =
        .ok [Polygon.new
          (create_arc ops
            (create_arc ops [] l.start d
              ((Edge.new l.start l.«end»).inverse_with_offset
                (out_normal.x * d) (out_normal.y * d)).next
              ((Edge.new l.start l.«end»).with_offset
                (in_normal.x * d) (in_normal.y * d)).current
              n true)
            l.«end» d
            ((Edge.new l.start l.«end»).with_offset
              (in_normal.x * d) (in_normal.y * d)).next
            ((Edge.new l.start l.«end»).inverse_with_offset
              (out_normal.x * d) (out_normal.y * d)).current
            n true)
          []] := by
  cases h1 : Edge.inwards_normal ops (Edge.new l.start l.«end») with
  | error e1 =>
    simp only [Edge.inwards_normal, Edge.new] at h1
    rw [if_neg hne] at h1
    cases h1
  | ok inn =>
    cases h2 : Edge.outwards_normal ops (Edge.new l.start l.«end») with
    | error e2 =>
      simp only [Edge.outwards_normal, Edge.new] at h2
      rw [if_neg hne] at h2
      cases h2
    | ok out =>
      refine ⟨inn, out, rfl, rfl, ?_⟩
      unfold line_offset_with_arc_segments
      rw [if_neg (not_lt.mpr hd)]
      simp only [h1, h2]

theorem line_offset_stadium_witness :
    (Line.mk ⟨0, 0⟩ ⟨10, 0⟩).start ≠ (Line.mk ⟨0, 0⟩ ⟨10, 0⟩).«end» ∧ (0 : ℚ) ≤ 2 ∧
    ∃ in_normal out_normal : Coord,
      Edge.inwards_normal idTrig
        (Edge.new (Line.mk ⟨0, 0⟩ ⟨10, 0⟩).start (Line.mk ⟨0, 0⟩ ⟨10, 0⟩).«end»)
        = .ok in_normal ∧
      Edge.outwards_normal idTrig
        (Edge.new (Line.mk ⟨0, 0⟩ ⟨10, 0⟩).start (Line.mk ⟨0, 0⟩ ⟨10, 0⟩).«end»)
        = .ok out_normal ∧
      line_offset_with_arc_segments idTrig (Line.mk ⟨0, 0⟩ ⟨10, 0⟩) 2 5 =
        .ok [Polygon.new
          (create_arc idTrig
            (create_arc idTrig [] (Line.mk ⟨0, 0⟩ ⟨10, 0⟩).start 2
              ((Edge.new (Line.mk ⟨0, 0⟩ ⟨10, 0⟩).start
                  (Line.mk ⟨0, 0⟩ ⟨10, 0⟩).«end»).inverse_with_offset
                (out_normal.x * 2) (out_normal.y * 2)).next
              ((Edge.new (Line.mk ⟨0, 0⟩ ⟨10, 0⟩).start
                  (Line.mk ⟨0, 0⟩ ⟨10, 0⟩).«end»).with_offset
                (in_normal.x * 2) (in_normal.y * 2)).current
              5 true)
            (Line.mk ⟨0, 0⟩ ⟨10, 0⟩).«end» 2
            ((Edge.new (Line.mk ⟨0, 0⟩ ⟨10, 0⟩).start
                (Line.mk ⟨0, 0⟩ ⟨10, 0⟩).«end»).with_offset
              (in_normal.x * 2) (in_normal.y * 2)).next
            ((Edge.new (Line.mk ⟨0, 0⟩ ⟨10, 0⟩).start
                (Line.mk ⟨0, 0⟩ ⟨10, 0⟩).«end»).inverse_with_offset
              (out_normal.x * 2) (out_normal.y * 2)).current
            5 true)
          []] :=
  ⟨by decide, by norm_num,
   line_offset_stadium idTrig (Line.mk ⟨0, 0⟩ ⟨10, 0⟩) 2 5 (by decide) (by norm_num)⟩

/-- C6: offsetting `Point(0,0)` with distance 1 and `arc_segments = 5`
returns `Ok` of exactly one polygon; the generated contour has exactly 11
vertices (5·2 = 10 is even, bumped to 11), vertex `i` (counting from 1) at
angle `i·2π/11` from the positive x-axis at radius 1, the angles strictly
increasing (counter-clockwise, so the first vertex is at angle `2π/11`) and
the vertices pairwise distinct — the latter two under the arithmetic facts
that π is positive and that the cosine/sine pair separates angles within
one period, both true of real trigonometry. -/
theorem point_offset_unit_circle (ops : FloatOps) (hpi : 0 < ops.pi)
    (hinj : ∀ a b : ℚ, 0 < a → a ≤ 2 * ops.pi → 0 < b → b ≤ 2 * ops.pi →
      ops.cos a = ops.cos b → ops.sin a = ops.sin b → a = b) :
    point_offset_with_arc_segments ops ⟨0, 0⟩ 1 5 =
      .ok [Polygon.new ((List.range 11).map fun i : ℕ =>
        (⟨ops.cos (((i : ℚ) + 1) * (2 * ops.pi / 11)),
          ops.sin (((i : ℚ) + 1) * (2 * ops.pi / 11))⟩ : Coord)) []] ∧
    ((List.range 11).map fun i : ℕ =>
      (⟨ops.cos (((i : ℚ) + 1) * (2 * ops.pi / 11)),
        ops.sin (((i : ℚ) + 1) * (2 * ops.pi / 11))⟩ : Coord)).length = 11 ∧
    ((List.range 11).map fun i : ℕ =>
      (⟨ops.cos (((i : ℚ) + 1) * (2 * ops.pi / 11)),
        ops.sin (((i : ℚ) + 1) * (2 * ops.pi / 11))⟩ : Coord)).Nodup ∧
    StrictMono fun i : Fin 11 => (((i : ℕ) : ℚ) + 1) * (2 * ops.pi / 11) := by
  have hq : 0 < 2 * ops.pi / 11 := by positivity
  refine ⟨?_, by simp, ?_, ?_⟩
  · have h0 : point_offset_with_arc_segments ops ⟨0, 0⟩ 1 5 =
        .ok [Polygon.new (pointContourAux ops ⟨0, 0⟩ 1 (circle_frag ops 11) 0 11) []] := rfl
    rw [h0, pointContourAux_eq]
    refine congrArg (fun c => (Except.ok [Polygon.new c []] : Except OffsetError MultiPolygon))
      (List.map_congr_left fun j hj => ?_)
    rw [show (0 : ℚ) + circle_frag ops 11 * (((j : ℕ) : ℚ) + 1) =
        ((j : ℚ) + 1) * (2 * ops.pi / 11) from by
      unfold circle_frag
      push_cast
      ring]
    norm_num
  · refine List.Nodup.map_on ?_ (List.nodup_range 11)
    intro a ha b hb hab
    have ha11 : a < 11 := List.mem_range.mp ha
    have hb11 : b < 11 := List.mem_range.mp hb
    have hcast : ∀ k : ℕ, k < 11 → 0 < ((k : ℚ) + 1) * (2 * ops.pi / 11) ∧
        ((k : ℚ) + 1) * (2 * ops.pi / 11) ≤ 2 * ops.pi := by
      intro k hk
      constructor
      · positivity
      · have hk1 : ((k : ℚ) + 1) ≤ 11 := by
          have : (k : ℚ) ≤ 10 := by exact_mod_cast Nat.le_of_lt_succ hk
          linarith
        calc ((k : ℚ) + 1) * (2 * ops.pi / 11) ≤ 11 * (2 * ops.pi / 11) :=
              mul_le_mul_of_nonneg_right hk1 (le_of_lt hq)
          _ = 2 * ops.pi := by ring
    obtain ⟨hpa, hpa2⟩ := hcast a ha11
    obtain ⟨hpb, hpb2⟩ := hcast b hb11
    injection hab with hx hy
    have hangles := hinj _ _ hpa hpa2 hpb hpb2 hx hy
    have hcancel : ((a : ℚ) + 1) = ((b : ℚ) + 1) :=
      mul_right_cancel₀ (ne_of_gt hq) hangles
    have : (a : ℚ) = (b : ℚ) := by linarith
    exact_mod_cast this
  · intro a b hab
    have : ((a : ℕ) : ℚ) + 1 < ((b : ℕ) : ℚ) + 1 := by
      have : (a : ℕ) < (b : ℕ) := hab
      have : ((a : ℕ) : ℚ) < ((b : ℕ) : ℚ) := by exact_mod_cast this
      linarith
    exact mul_lt_mul_of_pos_right this hq

theorem point_offset_unit_circle_witness :
    0 < idTrig.pi ∧
    (point_offset_with_arc_segments idTrig ⟨0, 0⟩ 1 5 =
      .ok [Polygon.new ((List.range 11).map fun i : ℕ =>
        (⟨idTrig.cos (((i : ℚ) + 1) * (2 * idTrig.pi / 11)),
          idTrig.sin (((i : ℚ) + 1) * (2 * idTrig.pi / 11))⟩ : Coord)) []] ∧
     ((List.range 11).map fun i : ℕ =>
       (⟨idTrig.cos (((i : ℚ) + 1) * (2 * idTrig.pi / 11)),
         idTrig.sin (((i : ℚ) + 1) * (2 * idTrig.pi / 11))⟩ : Coord)).length = 11 ∧
     ((List.range 11).map fun i : ℕ =>
       (⟨idTrig.cos (((i : ℚ) + 1) * (2 * idTrig.pi / 11)),
         idTrig.sin (((i : ℚ) + 1) * (2 * idTrig.pi / 11))⟩ : Coord)).Nodup ∧
     StrictMono fun i : Fin 11 => (((i : ℕ) : ℚ) + 1) * (2 * idTrig.pi / 11)) :=
  ⟨by norm_num [idTrig],
   point_offset_unit_circle idTrig (by norm_num [idTrig])
     (fun a b _ _ _ _ hcos _ => hcos)⟩

end GeoOffset
